import Mathlib

/-!
Verification development for a tabular-dataset profiler.

The repository contains three near-duplicate analyzers (a pure-python one,
a pandas one and a polars one) that classify each column of a dataset as
numeric / nested-dictionary / text, compute per-kind statistics, assess
dataset completeness and aggregate records by grouping columns.

This file gives a shallow embedding of that logic:
* cells are raw strings (the record-source contract: a blank /
  whitespace-only field denotes a missing value);
* Python `float` arithmetic is modelled over `ℚ` (the string-to-value map
  is an explicit parameter where it matters, since binary64 rounding is
  not modelled), `math.sqrt` over `ℝ`;
* results of `ast.literal_eval` are modelled by the inductive `PyVal`
  (the literal shapes the analyzer distinguishes); a `literal_eval` that
  raises is modelled as `none`;
* a Python function that may raise an uncaught exception is modelled in
  the `Except String` monad; a returned error dictionary is an ordinary
  constructor, distinct from a raised exception.
-/

/-! ### Blank cells and Python float parsing

`BasicDataAnalyzer` treats a cell as missing when `v.strip() == ''`.
Python `str.strip` removes whitespace; we model the whitespace class by
`Char.isWhitespace` (space, tab, CR, LF).
-/

/-- A cell is blank when it consists only of whitespace (this includes the
empty string), mirroring `v.strip() == ''`. -/
def isBlank (s : String) : Bool :=
  s.data.all Char.isWhitespace

/-- Strip leading and trailing whitespace from a character list; `float`
itself tolerates surrounding whitespace. -/
def stripWS (cs : List Char) : List Char :=
  ((cs.dropWhile Char.isWhitespace).reverse.dropWhile Char.isWhitespace).reverse

/-- Consume a run of further digits, allowing single underscores between
digits (Python numeric-literal grouping).  Returns the unconsumed rest;
an ill-placed underscore is left unconsumed (and makes the whole parse
fail later). -/
def munchDigits : List Char → List Char
  | [] => []
  | c :: rest =>
    if c.isDigit then munchDigits rest
    else
      match c, rest with
      | '_', d :: rest2 => if d.isDigit then munchDigits rest2 else c :: rest
      | _, _ => c :: rest

/-- Consume one digit group (at least one digit, underscores allowed
between digits).  `none` when the input does not start with a digit. -/
def digitsRun : List Char → Option (List Char)
  | [] => none
  | c :: rest => if c.isDigit then some (munchDigits rest) else none

/-- Consume the mantissa of a float literal: `digits [. [digits]]` or
`. digits`.  Returns the unconsumed rest. -/
def consumeMantissa (cs : List Char) : Option (List Char) :=
  match cs with
  | '.' :: rest => digitsRun rest
  | _ =>
    match digitsRun cs with
    | none => none
    | some rest =>
      match rest with
      | '.' :: rest2 =>
        match digitsRun rest2 with
        | some r => some r
        | none => some rest2
      | _ => some rest

/-- Recognise an exponent tail `[+|-] digits`, which must consume the
whole remaining input. -/
def consumeExp (cs : List Char) : Bool :=
  let cs :=
    match cs with
    | c :: rest => if c = '+' ∨ c = '-' then rest else cs
    | [] => []
  match digitsRun cs with
  | some [] => true
  | _ => false

/-- The part of the float grammar after an optional sign: a mantissa with
an optional exponent. -/
def parseFloatNum (cs : List Char) : Bool :=
  match consumeMantissa cs with
  | none => false
  | some rest =>
    match rest with
    | [] => true
    | e :: rest2 => if e = 'e' ∨ e = 'E' then consumeExp rest2 else false

/-- Model of the strings accepted by Python `float(text)`: optional
surrounding whitespace, optional sign, then either a decimal literal
(with optional fraction, exponent and underscore digit grouping) or one
of the case-insensitive special words `inf`, `infinity`, `nan`.  Note
that `float` therefore accepts the NON-finite values `inf` and `nan`.
(Unicode digits and exotic whitespace are not modelled.) -/
def pyFloatAccepts (s : String) : Bool :=
  let cs := stripWS s.data
  let cs :=
    match cs with
    | c :: rest => if c = '+' ∨ c = '-' then rest else cs
    | [] => []
  let lower := cs.map Char.toLower
  if lower = "inf".data ∨ lower = "infinity".data ∨ lower = "nan".data then true
  else parseFloatNum cs

/-- Embeds `BasicDataAnalyzer.check_if_number`: blank text is not a
number; otherwise the answer is whether `float(text)` succeeds. -/
def check_if_number (text : String) : Bool :=
  if isBlank text then false else pyFloatAccepts text

/-- Spec-side comparison definition, following the spec's words: the
entry "parses as a finite floating-point number" — the float grammar
WITHOUT the non-finite special values `inf`/`nan`.  (Overflow of huge
finite literals is not modelled.) -/
def spec_finite_float (s : String) : Bool :=
  let cs := stripWS s.data
  let cs :=
    match cs with
    | c :: rest => if c = '+' ∨ c = '-' then rest else cs
    | [] => []
  parseFloatNum cs

/-! ### Records and the column classifier -/

/-- A record: an ordered association of column name to raw textual field,
as produced by `csv.DictReader`. -/
def Record := List (String × String)

instance : DecidableEq Record :=
  inferInstanceAs (DecidableEq (List (String × String)))

/-- Embeds `row.get(col_name, '')`: the raw field of a column, empty
string when the record has no such column. -/
def getCol (r : Record) (c : String) : String :=
  match r.find? (fun p => p.1 = c) with
  | some p => p.2
  | none => ""

/-- The non-blank values of a column
(`[v for v in all_values if v.strip() != '']`). -/
def realValues (vals : List String) : List String :=
  vals.filter (fun v => !(isBlank v))

/-- Number of non-blank values that pass `check_if_number`; this is
`len(number_list)` in `look_at_one_column`. -/
def parseable_count (vals : List String) : Nat :=
  ((realValues vals).filter check_if_number).length

/-- Count of non-blank values that the SPEC calls numeric (finite-float
parses); used only to compare the spec's wording with the code. -/
def finite_float_count (vals : List String) : Nat :=
  ((realValues vals).filter spec_finite_float).length

/-- The `data_type` tag assigned by `look_at_one_column`. -/
inductive DataType where
  | numbers
  | nested_dict
  | text
deriving DecidableEq

/-- The classification decision of `BasicDataAnalyzer.look_at_one_column`:
columns named `delivery_by_region` or `demographic_distribution` are
tagged `nested_dict` before any content is examined; any other column is
`numbers` when `len(number_list) > 0 and
len(number_list) / len(real_values) > 0.5`, else `text`. -/
def classify_column (col_name : String) (all_values : List String) : DataType :=
  let real := realValues all_values
  if col_name = "delivery_by_region" then DataType.nested_dict
  else if col_name = "demographic_distribution" then DataType.nested_dict
  else if 0 < (real.filter check_if_number).length ∧
      (1 : ℚ) / 2 < ((real.filter check_if_number).length : ℚ) / real.length
    then DataType.numbers
  else DataType.text

/-- C1 (amended).  For a column whose name is neither
`delivery_by_region` nor `demographic_distribution` and whose list of
non-blank values is non-empty, the classifier returns `numbers` exactly
when the count of values accepted by Python `float()` (which includes
`inf`/`nan`), divided by the number of non-blank values, is strictly
greater than 1/2; in particular exactly 50% is not numeric. -/
theorem classify_numeric_iff (name : String) (vals : List String)
    (h1 : name ≠ "delivery_by_region")
    (h2 : name ≠ "demographic_distribution")
    (_h3 : realValues vals ≠ []) :
    classify_column name vals = DataType.numbers ↔
      (1 : ℚ) / 2 < (parseable_count vals : ℚ) / (realValues vals).length := by
  unfold classify_column parseable_count
  rw [if_neg h1, if_neg h2]
  set real := realValues vals with hreal
  set k := (real.filter check_if_number).length with hk
  constructor
  · intro h
    by_cases hc : 0 < k ∧ (1 : ℚ) / 2 < (k : ℚ) / real.length
    · exact hc.2
    · rw [if_neg hc] at h
      exact absurd h (by simp)
  · intro h
    have hkpos : 0 < k := by
      by_contra hk0
      have : k = 0 := Nat.eq_zero_of_not_pos hk0
      rw [this] at h
      norm_num at h
    rw [if_pos ⟨hkpos, h⟩]

/-- Witness for C1's amended theorem at a concrete column: values
`["10", "20", ""]` have two non-blank entries, both numeric, and the
column classifies as `numbers`. -/
theorem classify_numeric_iff_witness :
    classify_column "amount" ["10", "20", ""] = DataType.numbers ↔
      (1 : ℚ) / 2 <
        (parseable_count ["10", "20", ""] : ℚ) /
          (realValues ["10", "20", ""]).length :=
  classify_numeric_iff "amount" ["10", "20", ""]
    (by decide) (by decide) (by decide)

/-- Counterexample to C1 as stated.  First, a column NAMED
`delivery_by_region` whose two non-blank values are both finite floats
(ratio 1 > 1/2) is nevertheless not classified numeric.  Second, a
column whose values are `["nan", "nan", "x"]` contains NO finite-float
entry (ratio 0 ≤ 1/2) yet IS classified numeric, because `float('nan')`
succeeds. -/
theorem classify_numeric_counterexample :
    ((1 : ℚ) / 2 <
        (finite_float_count ["1", "2"] : ℚ) / (realValues ["1", "2"]).length ∧
      classify_column "delivery_by_region" ["1", "2"] ≠ DataType.numbers) ∧
    (¬ ((1 : ℚ) / 2 <
        (finite_float_count ["nan", "nan", "x"] : ℚ) /
          (realValues ["nan", "nan", "x"]).length) ∧
      classify_column "c" ["nan", "nan", "x"] = DataType.numbers) := by
  have hf1 : finite_float_count ["1", "2"] = 2 := by decide
  have hl1 : (realValues ["1", "2"]).length = 2 := by decide
  have hf2 : finite_float_count ["nan", "nan", "x"] = 0 := by decide
  have hfilter : (realValues ["nan", "nan", "x"]).filter check_if_number =
      ["nan", "nan"] := by decide
  have hl2 : (realValues ["nan", "nan", "x"]).length = 3 := by decide
  refine ⟨⟨?_, by decide⟩, ?_, ?_⟩
  · rw [hf1, hl1]; norm_num
  · rw [hf2, hl2]; norm_num
  · unfold classify_column
    rw [if_neg (by decide), if_neg (by decide), if_pos]
    rw [hfilter, hl2]
    exact ⟨by norm_num, by norm_num⟩

/-- C2 (amended).  In the pure-python analyzer the nested-dictionary tier
is decided by the column NAME alone and takes precedence over the
numeric test: a column is classified `nested_dict` exactly when it is
named `delivery_by_region` or `demographic_distribution`, whatever its
values contain. -/
theorem classify_nested_iff_name (name : String) (vals : List String) :
    classify_column name vals = DataType.nested_dict ↔
      name = "delivery_by_region" ∨ name = "demographic_distribution" := by
  unfold classify_column
  by_cases h1 : name = "delivery_by_region"
  · simp [h1]
  · rw [if_neg h1]
    by_cases h2 : name = "demographic_distribution"
    · simp [h2]
    · rw [if_neg h2]
      constructor
      · intro h
        by_cases hc : 0 < ((realValues vals).filter check_if_number).length ∧
            (1 : ℚ) / 2 < (((realValues vals).filter check_if_number).length : ℚ) /
              (realValues vals).length
        · rw [if_pos hc] at h
          exact absurd h (by simp)
        · rw [if_neg hc] at h
          exact absurd h (by simp)
      · intro h
        exact absurd h (by simp [h1, h2])

/-- Counterexample to C2 as stated: the column named `delivery_by_region`
with values `["1", "2"]` passes the numeric-majority test (ratio 1 >
1/2), and its first value does not even parse as a mapping, yet the
column is classified `nested_dict` — the nested tier is applied before
the numeric test and is driven by the name, not by parsed content. -/
theorem classify_nested_counterexample :
    (1 : ℚ) / 2 <
      (parseable_count ["1", "2"] : ℚ) / (realValues ["1", "2"]).length ∧
    classify_column "delivery_by_region" ["1", "2"] = DataType.nested_dict := by
  have hp : parseable_count ["1", "2"] = 2 := by decide
  have hl : (realValues ["1", "2"]).length = 2 := by decide
  exact ⟨by rw [hp, hl]; norm_num, by decide⟩

/-! ### Python literal values and the nested-dictionary unpackers

`unpack_delivery_by_region` / `unpack_demographics` call
`ast.literal_eval(row_val)` inside a bare `try/except` and return a
zero contribution when THE EVAL raises; everything after the `except`
block runs unprotected, so a value that literal-parses to something
other than a dict-of-dicts raises an uncaught exception
(`AttributeError` on `.values()`/`.items()`/`.get`, `TypeError` on
`int + non-int`). -/

/-- Model of `ast.literal_eval` results, restricted to the literal
shapes the analyzer distinguishes (numeric literals are modelled as
integers). -/
inductive PyVal where
  | int (n : Int)
  | str (s : String)
  | dict (entries : List (String × PyVal))
  | list (elems : List PyVal)

/-- Python `d.get(k, default)` on a dict. -/
def dictGetD (m : List (String × PyVal)) (k : String) (d : PyVal) : PyVal :=
  match m.find? (fun p => p.1 = k) with
  | some p => p.2
  | none => d

/-- Using a Python value as an integer; any other shape raises
`TypeError` when added to a running integer sum. -/
def asInt : PyVal → Except String Int
  | PyVal.int n => Except.ok n
  | _ => Except.error "TypeError"

/-- One iteration of the `for region_data in parsed.values()` loop of
`unpack_delivery_by_region`: `region_data` must be a dict (else
`.get` raises `AttributeError`), and its `spend`/`impressions` entries
(default 0) are added to the running totals. -/
def regionStep (acc : Int × Int) (e : String × PyVal) :
    Except String (Int × Int) :=
  match e.2 with
  | PyVal.dict rd => do
    let s ← asInt (dictGetD rd "spend" (PyVal.int 0))
    let i ← asInt (dictGetD rd "impressions" (PyVal.int 0))
    Except.ok (acc.1 + s, acc.2 + i)
  | _ => Except.error "AttributeError"

/-- Embeds `BasicDataAnalyzer.unpack_delivery_by_region`.  The cell is
the result of `ast.literal_eval` (`none` when the eval raised, which the
bare `except` turns into a zero contribution).  A cell that evaluates to
a non-dict reaches `parsed.values()` OUTSIDE the `try` block and raises
`AttributeError`. -/
def unpack_delivery_by_region (cell : Option PyVal) :
    Except String (Int × Int) :=
  match cell with
  | none => Except.ok (0, 0)
  | some (PyVal.dict entries) => entries.foldlM regionStep (0, 0)
  | some _ => Except.error "AttributeError"

/-- Loop state of `unpack_demographics`: running spend/impressions sums,
the current top demographic and the running maximum spend (initialised
to `None` and `0`). -/
structure DemoState where
  spend : Int
  impressions : Int
  top : Option String
  maxSpend : Int

/-- Result dictionary of `unpack_demographics`. -/
structure DemoRes where
  total_spend : Int
  total_impressions : Int
  top_demo_by_spend : Option String
deriving DecidableEq

/-- One iteration of the `for demo, metrics in parsed.items()` loop:
`metrics` must be a dict with integer `spend`/`impressions` (default 0);
the top demographic is replaced only when `s > max_spend` strictly. -/
def demoStep (st : DemoState) (e : String × PyVal) :
    Except String DemoState :=
  match e.2 with
  | PyVal.dict metrics => do
    let s ← asInt (dictGetD metrics "spend" (PyVal.int 0))
    let i ← asInt (dictGetD metrics "impressions" (PyVal.int 0))
    Except.ok
      { spend := st.spend + s
        impressions := st.impressions + i
        top := if st.maxSpend < s then some e.1 else st.top
        maxSpend := if st.maxSpend < s then s else st.maxSpend }
  | _ => Except.error "AttributeError"

/-- Embeds `BasicDataAnalyzer.unpack_demographics` (same `try/except`
scoping as `unpack_delivery_by_region`). -/
def unpack_demographics (cell : Option PyVal) : Except String DemoRes :=
  match cell with
  | none => Except.ok ⟨0, 0, none⟩
  | some (PyVal.dict entries) =>
    (entries.foldlM demoStep ⟨0, 0, none, 0⟩).map
      (fun st => ⟨st.spend, st.impressions, st.top⟩)
  | some _ => Except.error "AttributeError"

/-- C8.  The zero-contribution fallback only covers a raising
`literal_eval`: a `delivery_by_region` cell whose text is `"5"`
literal-parses to the integer 5 and then `parsed.values()` raises an
uncaught `AttributeError`, aborting the analysis, while a cell whose
literal parse fails does contribute `{spend: 0, impressions: 0}`. -/
theorem unpack_region_raises_on_nondict :
    unpack_delivery_by_region (some (PyVal.int 5)) =
      Except.error "AttributeError" ∧
    unpack_delivery_by_region none = Except.ok (0, 0) :=
  ⟨rfl, rfl⟩

/-! ### The running-maximum top-key loop

`unpack_demographics` tracks the top demographic with
`top_demo = None; max_spend = 0; ... if s > max_spend: ...`, so ties
keep the earlier key, and a mapping whose spends are all `<= 0` yields
NO top key (the spec's "sub-key with the maximum spend" wording misses
this). -/

/-- The pure top-key loop extracted from `unpack_demographics`:
state is the current top key and the running maximum spend. -/
def topLoop : List (String × Int) → Option String → Int → Option String
  | [], t, _ => t
  | p :: rest, t, m =>
    if m < p.2 then topLoop rest (some p.1) p.2 else topLoop rest t m

/-- The running maximum of the same loop. -/
def maxLoop : List (String × Int) → Int → Int
  | [], m => m
  | p :: rest, m => maxLoop rest (if m < p.2 then p.2 else m)

/-- Maximum of the spends of `l` and a seed `m`. -/
def foldMax (m : Int) (l : List (String × Int)) : Int :=
  l.foldl (fun a p => max a p.2) m

theorem ite_lt_eq_max (m s : Int) : (if m < s then s else m) = max m s := by
  rcases lt_or_ge m s with h | h
  · simp [h, max_eq_right h.le]
  · simp [not_lt.2 h, max_eq_left h]

theorem maxLoop_eq_foldMax (l : List (String × Int)) (m : Int) :
    maxLoop l m = foldMax m l := by
  induction l generalizing m with
  | nil => rfl
  | cons p rest ih =>
    show maxLoop rest (if m < p.2 then p.2 else m) = foldMax (max m p.2) rest
    rw [ite_lt_eq_max, ih]

theorem le_foldMax (l : List (String × Int)) (m : Int) : m ≤ foldMax m l := by
  induction l generalizing m with
  | nil => exact le_refl m
  | cons p rest ih =>
    exact le_trans (le_max_left m p.2) (ih (max m p.2))

theorem mem_le_foldMax {p : String × Int} {l : List (String × Int)}
    (h : p ∈ l) (m : Int) : p.2 ≤ foldMax m l := by
  induction l generalizing m with
  | nil => cases h
  | cons q rest ih =>
    rcases List.mem_cons.mp h with h1 | h1
    · show p.2 ≤ foldMax (max m q.2) rest
      rw [h1]
      exact le_trans (le_max_right m q.2) (le_foldMax rest _)
    · exact ih h1 (max m q.2)

theorem foldMax_of_le {l : List (String × Int)} {m : Int}
    (h : ∀ p ∈ l, p.2 ≤ m) : foldMax m l = m := by
  induction l generalizing m with
  | nil => rfl
  | cons q rest ih =>
    show foldMax (max m q.2) rest = m
    rw [max_eq_left (h q (List.mem_cons_self q rest))]
    exact ih (fun p hp => h p (List.mem_cons_of_mem q hp))

/-- The final top key returned by the loop: the existing key when no
spend exceeds the seed maximum, else the FIRST key attaining the overall
maximum. -/
theorem topLoop_spec (l : List (String × Int)) (t : Option String) (m : Int) :
    topLoop l t m =
      if ∀ p ∈ l, p.2 ≤ m then t
      else (l.find? (fun p => p.2 == foldMax m l)).map (fun p => p.1) := by
  induction l generalizing t m with
  | nil => simp [topLoop]
  | cons x rest ih =>
    have hfm : foldMax m (x :: rest) = foldMax (max m x.2) rest := rfl
    by_cases hx : m < x.2
    · have hstep : topLoop (x :: rest) t m = topLoop rest (some x.1) x.2 := by
        simp [topLoop, hx]
      rw [hstep, ih]
      have hnotall : ¬ ∀ p ∈ x :: rest, p.2 ≤ m := by
        intro hall
        exact absurd (hall x (List.mem_cons_self x rest)) (not_le.2 hx)
      rw [if_neg hnotall, hfm, max_eq_right hx.le]
      by_cases hall : ∀ p ∈ rest, p.2 ≤ x.2
      · rw [if_pos hall, foldMax_of_le hall,
          List.find?_cons_of_pos _ (by simp)]
        rfl
      · rw [if_neg hall]
        push_neg at hall
        obtain ⟨q, hq, hqgt⟩ := hall
        have hgt : x.2 < foldMax x.2 rest :=
          lt_of_lt_of_le hqgt (mem_le_foldMax hq x.2)
        rw [List.find?_cons_of_neg _ (by simp [ne_of_lt hgt])]
    · have hstep : topLoop (x :: rest) t m = topLoop rest t m := by
        simp [topLoop, hx]
      have hxle : x.2 ≤ m := not_lt.1 hx
      rw [hstep, ih, hfm, max_eq_left hxle]
      by_cases hall : ∀ p ∈ rest, p.2 ≤ m
      · rw [if_pos hall, if_pos]
        intro p hp
        rcases List.mem_cons.mp hp with h1 | h1
        · rw [h1]; exact hxle
        · exact hall p h1
      · rw [if_neg hall, if_neg]
        · have hgt : x.2 < foldMax m rest := by
            push_neg at hall
            obtain ⟨q, hq, hqgt⟩ := hall
            exact lt_of_le_of_lt hxle (lt_of_lt_of_le hqgt (mem_le_foldMax hq m))
          rw [List.find?_cons_of_neg _ (by simp [ne_of_lt hgt])]
        · intro hall2
          exact hall (fun p hp => hall2 p (List.mem_cons_of_mem x hp))

/-- A canonical well-formed demographic mapping: each key carries a
sub-dict with integer `spend` and `impressions`. -/
def mkDemoEntries (rows : List (String × Int × Int)) : List (String × PyVal) :=
  rows.map (fun e =>
    (e.1, PyVal.dict [("spend", PyVal.int e.2.1), ("impressions", PyVal.int e.2.2)]))

/-- The key/spend pairs of a canonical demographic mapping. -/
def spendsOf (rows : List (String × Int × Int)) : List (String × Int) :=
  rows.map (fun e => (e.1, e.2.1))

/-- The top key computed by `unpack_demographics` for a mapping, starting
from the code's initial state `top_demo = None`, `max_spend = 0`. -/
def topFold (l : List (String × Int)) : Option String := topLoop l none 0

theorem demoStep_canonical (st : DemoState) (k : String) (s i : Int) :
    demoStep st
        (k, PyVal.dict [("spend", PyVal.int s), ("impressions", PyVal.int i)]) =
      Except.ok
        ⟨st.spend + s, st.impressions + i,
          if st.maxSpend < s then some k else st.top,
          if st.maxSpend < s then s else st.maxSpend⟩ := rfl

theorem foldlM_demo_canonical (rows : List (String × Int × Int)) (st : DemoState) :
    (mkDemoEntries rows).foldlM demoStep st =
      Except.ok
        ⟨st.spend + (rows.map (fun e => e.2.1)).sum,
          st.impressions + (rows.map (fun e => e.2.2)).sum,
          topLoop (spendsOf rows) st.top st.maxSpend,
          maxLoop (spendsOf rows) st.maxSpend⟩ := by
  induction rows generalizing st with
  | nil =>
    show (pure st : Except String DemoState) = _
    simp [topLoop, maxLoop, spendsOf, mkDemoEntries]
    rfl
  | cons e rest ih =>
    have hmk : mkDemoEntries (e :: rest) =
        (e.1, PyVal.dict [("spend", PyVal.int e.2.1), ("impressions", PyVal.int e.2.2)]) ::
          mkDemoEntries rest := rfl
    rw [hmk, List.foldlM_cons, demoStep_canonical]
    have hbind :
        (Except.ok
            (⟨st.spend + e.2.1, st.impressions + e.2.2,
              if st.maxSpend < e.2.1 then some e.1 else st.top,
              if st.maxSpend < e.2.1 then e.2.1 else st.maxSpend⟩ : DemoState)
          : Except String DemoState) >>= (mkDemoEntries rest).foldlM demoStep =
        (mkDemoEntries rest).foldlM demoStep
          ⟨st.spend + e.2.1, st.impressions + e.2.2,
            if st.maxSpend < e.2.1 then some e.1 else st.top,
            if st.maxSpend < e.2.1 then e.2.1 else st.maxSpend⟩ := rfl
    rw [hbind, ih]
    have hsp : spendsOf (e :: rest) = (e.1, e.2.1) :: spendsOf rest := rfl
    rw [hsp]
    by_cases hc : st.maxSpend < e.2.1 <;>
      simp [topLoop, maxLoop, hc, List.map_cons, List.sum_cons, add_assoc]

theorem unpack_demographics_canonical (rows : List (String × Int × Int)) :
    unpack_demographics (some (PyVal.dict (mkDemoEntries rows))) =
      Except.ok
        ⟨(rows.map (fun e => e.2.1)).sum, (rows.map (fun e => e.2.2)).sum,
          topFold (spendsOf rows)⟩ := by
  show ((mkDemoEntries rows).foldlM demoStep ⟨0, 0, none, 0⟩).map
      (fun st => (⟨st.spend, st.impressions, st.top⟩ : DemoRes)) = _
  rw [foldlM_demo_canonical]
  simp [topFold, Except.map]

/-! ### `Counter.most_common` -/

/-- The distinct values of a list in first-occurrence order — the key
order of a Python `Counter` built by iterating the list. -/
def firstOccs (l : List String) : List String :=
  l.foldl (fun acc x => if x ∈ acc then acc else acc ++ [x]) []

theorem mem_firstOccs_foldl (l : List String) (acc : List String) (a : String) :
    (a ∈ l.foldl (fun acc x => if x ∈ acc then acc else acc ++ [x]) acc) ↔
      a ∈ acc ∨ a ∈ l := by
  induction l generalizing acc with
  | nil => simp
  | cons x rest ih =>
    rw [List.foldl_cons, ih]
    by_cases hx : x ∈ acc
    · rw [if_pos hx]
      constructor
      · rintro (h | h)
        exacts [Or.inl h, Or.inr (List.mem_cons_of_mem x h)]
      · rintro (h | h)
        · exact Or.inl h
        · rcases List.mem_cons.mp h with h1 | h1
          exacts [Or.inl (h1 ▸ hx), Or.inr h1]
    · rw [if_neg hx]
      constructor
      · rintro (h | h)
        · rcases List.mem_append.mp h with h1 | h1
          · exact Or.inl h1
          · exact Or.inr (List.mem_cons.mpr (Or.inl (List.mem_singleton.mp h1)))
        · exact Or.inr (List.mem_cons_of_mem x h)
      · rintro (h | h)
        · exact Or.inl (List.mem_append.mpr (Or.inl h))
        · rcases List.mem_cons.mp h with h1 | h1
          · exact Or.inl (List.mem_append.mpr (Or.inr (by simp [h1])))
          · exact Or.inr h1

theorem mem_firstOccs (l : List String) (a : String) :
    a ∈ firstOccs l ↔ a ∈ l := by
  unfold firstOccs
  rw [mem_firstOccs_foldl]
  simp

/-- Ordering used by `Counter.most_common`: larger count first; Python's
sort is stable, matching `List.orderedInsert`'s tie behaviour. -/
def countRel : String × Nat → String × Nat → Prop := fun a b => b.2 ≤ a.2

instance : DecidableRel countRel :=
  fun a b => inferInstanceAs (Decidable (b.2 ≤ a.2))

instance : IsTotal (String × Nat) countRel :=
  ⟨fun a b => Nat.le_total b.2 a.2⟩

instance : IsTrans (String × Nat) countRel :=
  ⟨fun _ _ _ hab hbc => le_trans hbc hab⟩

/-- Embeds `Counter(l).most_common(n)`: the (value, count) pairs in
count-descending order (stable on ties), truncated to `n`. -/
def mostCommon (n : Nat) (l : List String) : List (String × Nat) :=
  (((firstOccs l).map (fun k => (k, l.count k))).insertionSort countRel).take n

/-- For a non-empty list, `most_common(1)` returns one pair whose count
is the count of that value and dominates every other count. -/
theorem mostCommon_one_spec (l : List String) (h : l ≠ []) :
    ∃ v c, mostCommon 1 l = [(v, c)] ∧ v ∈ l ∧ c = l.count v ∧
      ∀ x ∈ l, l.count x ≤ c := by
  set pairs := (firstOccs l).map (fun k => (k, l.count k)) with hpairs
  have hperm : List.Perm (pairs.insertionSort countRel) pairs :=
    List.perm_insertionSort countRel pairs
  have hsorted : List.Sorted countRel (pairs.insertionSort countRel) :=
    List.sorted_insertionSort countRel pairs
  have hlmem : ∀ x ∈ l, (x, l.count x) ∈ pairs := fun x hx =>
    List.mem_map.mpr ⟨x, (mem_firstOccs l x).mpr hx, rfl⟩
  have hs_ne : pairs.insertionSort countRel ≠ [] := by
    intro hnil
    cases l with
    | nil => exact h rfl
    | cons z zs =>
      have hz := hlmem z (List.mem_cons_self z zs)
      rw [← hperm.mem_iff, hnil] at hz
      cases hz
  obtain ⟨y, l0, hcons⟩ := List.exists_cons_of_ne_nil hs_ne
  have hmc : mostCommon 1 l = [y] := by
    unfold mostCommon
    rw [← hpairs, hcons]
    rfl
  have hymem : y ∈ pairs := by
    rw [← hperm.mem_iff, hcons]
    exact List.mem_cons_self y l0
  obtain ⟨k, hk, hky⟩ := List.mem_map.mp hymem
  refine ⟨k, l.count k, ?_, (mem_firstOccs l k).mp hk, rfl, ?_⟩
  · rw [hmc, ← hky]
  · intro x hx
    have hxs : (x, l.count x) ∈ pairs.insertionSort countRel := by
      rw [hperm.mem_iff]
      exact hlmem x hx
    rw [hcons] at hxs
    rcases List.mem_cons.mp hxs with h1 | h1
    · rw [← hky] at h1
      have := congrArg Prod.snd h1
      simp only at this
      rw [this]
    · have hrel : countRel y (x, l.count x) :=
        List.rel_of_sorted_cons (hcons ▸ hsorted) _ h1
      rw [← hky] at hrel
      exact hrel

/-- Spec-side comparison definition, following the spec's words: "the
sub-key with the maximum `spend` (ties resolved by first-encountered
key)" — for a non-empty mapping this ALWAYS names a key. -/
def spec_top_key (l : List (String × Int)) : Option String :=
  match l with
  | [] => none
  | x :: xs =>
    ((x :: xs).find? (fun p => p.2 == xs.foldl (fun a q => max a q.2) x.2)).map
      (fun p => p.1)

/-- C7 (amended).  For a demographic mapping whose sub-records carry
integer `spend`/`impressions`, `unpack_demographics` sums both metrics
and computes the top key by the running-maximum loop `topFold`; the top
key is the FIRST key attaining the maximum spend PROVIDED that maximum
is strictly positive, and it is `None` when every spend is `≤ 0`
(because `max_spend` is initialised to 0).  Across records,
`Counter(...).most_common(1)` exposes one top key whose frequency count
dominates all others. -/
theorem unpack_demographics_top_key :
    (∀ rows : List (String × Int × Int),
      unpack_demographics (some (PyVal.dict (mkDemoEntries rows))) =
        Except.ok
          ⟨(rows.map (fun e => e.2.1)).sum, (rows.map (fun e => e.2.2)).sum,
            topFold (spendsOf rows)⟩) ∧
    (∀ l : List (String × Int), 0 < foldMax 0 l →
      topFold l = (l.find? (fun p => p.2 == foldMax 0 l)).map (fun p => p.1)) ∧
    (∀ l : List (String × Int), (∀ p ∈ l, p.2 ≤ 0) → topFold l = none) ∧
    (∀ tl : List String, tl ≠ [] →
      ∃ v c, mostCommon 1 tl = [(v, c)] ∧ v ∈ tl ∧ c = tl.count v ∧
        ∀ x ∈ tl, tl.count x ≤ c) := by
  refine ⟨unpack_demographics_canonical, ?_, ?_, mostCommon_one_spec⟩
  · intro l hpos
    unfold topFold
    rw [topLoop_spec, if_neg]
    intro hall
    rw [foldMax_of_le hall] at hpos
    exact lt_irrefl 0 hpos
  · intro l hall
    unfold topFold
    rw [topLoop_spec, if_pos hall]

/-- Witness for C7's amended theorem at concrete inputs: a two-key
mapping with tied positive spends keeps the first key; an all-zero
mapping yields no top key; `most_common(1)` of `["a", "b", "a"]` is
`("a", 2)`. -/
theorem unpack_demographics_top_key_witness :
    (topFold [("a", 2), ("b", 2)] =
      ([( "a", 2), ("b", 2)].find?
          (fun p => p.2 == foldMax 0 [("a", 2), ("b", 2)])).map (fun p => p.1)) ∧
    topFold [("z", 0)] = none ∧
    (∃ v c, mostCommon 1 ["a", "b", "a"] = [(v, c)] ∧ v ∈ ["a", "b", "a"] ∧
      c = List.count v ["a", "b", "a"] ∧
      ∀ x ∈ ["a", "b", "a"], List.count x ["a", "b", "a"] ≤ c) :=
  ⟨unpack_demographics_top_key.2.1 [("a", 2), ("b", 2)] (by decide),
    unpack_demographics_top_key.2.2.1 [("z", 0)] (by decide),
    unpack_demographics_top_key.2.2.2 ["a", "b", "a"] (by decide)⟩

/-- Counterexample to C7 as stated: the one-key mapping
`{'a': {'spend': 0, 'impressions': 0}}` is non-empty, and the spec's
"sub-key with the maximum spend" is `'a'`, but the code produces NO top
key because `max_spend` starts at 0 and only a strictly greater spend
replaces it. -/
theorem unpack_demographics_top_key_counterexample :
    spec_top_key [("a", 0)] = some "a" ∧
    unpack_demographics (some (PyVal.dict (mkDemoEntries [("a", (0, 0))]))) =
      Except.ok ⟨0, 0, none⟩ :=
  ⟨rfl, rfl⟩

/-! ### Numeric statistics (`get_average`, `get_std_dev`)

Float arithmetic is modelled exactly over `ℚ`; `math.sqrt` over `ℝ`.
Exact equality below implies the spec's 1e-9 relative tolerance. -/

/-- Embeds `BasicDataAnalyzer.get_average`: 0 for an empty list, else
the arithmetic mean. -/
def get_average (numbers : List ℚ) : ℚ :=
  if numbers = [] then 0 else numbers.sum / numbers.length

/-- The variance computed inside `get_std_dev` for `n ≥ 2`:
`sum((x - avg)^2) / (n - 1)`. -/
def get_variance (numbers : List ℚ) : ℚ :=
  (numbers.map (fun x => (x - get_average numbers) ^ 2)).sum /
    ((numbers.length : ℚ) - 1)

/-- Embeds `BasicDataAnalyzer.get_std_dev`: 0 when fewer than two
values, else `math.sqrt` of the sample variance. -/
noncomputable def get_std_dev (numbers : List ℚ) : ℝ :=
  if numbers.length < 2 then 0 else Real.sqrt (get_variance numbers)

/-- The list of values of a column viewed as exact reals. -/
def castList (l : List ℚ) : List ℝ :=
  l.map (fun q => Rat.cast q)

theorem ratCast_list_sum (l : List ℚ) :
    ((l.sum : ℚ) : ℝ) = (castList l).sum := by
  induction l with
  | nil => simp [castList]
  | cons x rest ih =>
    rw [List.sum_cons, castList, List.map_cons, List.sum_cons, Rat.cast_add]
    rw [castList] at ih
    rw [ih]

theorem get_average_cast (xs : List ℚ) (hne : xs ≠ []) :
    ((get_average xs : ℚ) : ℝ) =
      (castList xs).sum / (xs.length : ℝ) := by
  unfold get_average
  rw [if_neg hne, Rat.cast_div, ratCast_list_sum]
  norm_cast

theorem get_variance_cast (xs : List ℚ) (hne : xs ≠ []) :
    ((get_variance xs : ℚ) : ℝ) =
      ((castList xs).map (fun x =>
          (x - (castList xs).sum / (xs.length : ℝ)) ^ 2)).sum /
        ((xs.length : ℝ) - 1) := by
  unfold get_variance
  rw [Rat.cast_div, ratCast_list_sum]
  unfold castList
  rw [List.map_map, List.map_map]
  congr 1
  · refine congrArg List.sum (List.map_congr_left ?_)
    intro x _
    simp only [Function.comp_apply]
    push_cast
    rw [get_average_cast xs hne]
    unfold castList
    rfl
  · push_cast
    ring

/-- C6.  `get_std_dev` is the sample standard deviation with the
`(n - 1)` denominator over the parsed values: it is 0 for fewer than
two values, and for `n ≥ 2` it is non-negative and equals
`sqrt(sum((x - mean)^2) / (n - 1))` of the list, exactly (hence within
any relative tolerance). -/
theorem get_std_dev_spec (xs : List ℚ) :
    (xs.length < 2 → get_std_dev xs = 0) ∧
    (2 ≤ xs.length →
      0 ≤ get_std_dev xs ∧
      get_std_dev xs =
        Real.sqrt
          (((castList xs).map (fun x =>
              (x - (castList xs).sum / (xs.length : ℝ)) ^ 2)).sum /
            ((xs.length : ℝ) - 1))) := by
  constructor
  · intro h
    unfold get_std_dev
    rw [if_pos h]
  · intro h
    have hne : xs ≠ [] := by
      intro hnil
      rw [hnil] at h
      norm_num at h
    have hlen : get_std_dev xs = Real.sqrt (get_variance xs) := by
      unfold get_std_dev
      rw [if_neg (not_lt.2 h)]
    constructor
    · rw [hlen]
      exact Real.sqrt_nonneg _
    · rw [hlen]
      congr 1
      exact get_variance_cast xs hne

/-- Witness for C6 at concrete lists: `[0]` has standard deviation 0;
`[1, 2, 3]` has a non-negative standard deviation equal to the closed
formula. -/
theorem get_std_dev_spec_witness :
    get_std_dev [(0 : ℚ)] = 0 ∧
    (0 ≤ get_std_dev [(1 : ℚ), 2, 3] ∧
      get_std_dev [(1 : ℚ), 2, 3] =
        Real.sqrt
          (((castList [(1 : ℚ), 2, 3]).map (fun x =>
              (x - (castList [(1 : ℚ), 2, 3]).sum /
                  (([(1 : ℚ), 2, 3]).length : ℝ)) ^ 2)).sum /
            ((([(1 : ℚ), 2, 3]).length : ℝ) - 1))) :=
  ⟨(get_std_dev_spec [(0 : ℚ)]).1 (by norm_num),
    (get_std_dev_spec [(1 : ℚ), 2, 3]).2 (by norm_num)⟩

/-! ### Group aggregation

`BasicDataAnalyzer.group_data_by` performs NO validation of the
requested grouping columns: `row.get(col, '')` silently maps a
nonexistent column (and any missing value) to the empty string, and
every record lands in exactly one group, keyed by the tuple of raw
values, in first-seen order (`defaultdict` insertion order).
`PandasHelper.do_groupby_stuff`, by contrast, first checks
`[col for col in group_columns if col not in df.columns]` and returns
an error dictionary naming the offenders. -/

/-- The grouping key of one record: the tuple of raw values of the
grouping columns (missing treated as `''`). -/
def groupKey (r : Record) (cols : List String) : List String :=
  cols.map (getCol r)

/-- Insert a record into the group list for its key, appending a new
group at the end when the key is new (insertion order of a
`defaultdict`). -/
def addToGroups (gs : List (List String × List Record)) (k : List String)
    (r : Record) : List (List String × List Record) :=
  match gs with
  | [] => [(k, [r])]
  | (k', rs) :: rest =>
    if k' = k then (k', rs ++ [r]) :: rest
    else (k', rs) :: addToGroups rest k r

/-- The groups (`my_groups`) built from the records, in first-seen key
order. -/
def buildGroups (rows : List Record) (cols : List String) :
    List (List String × List Record) :=
  rows.foldl (fun gs r => addToGroups gs (groupKey r cols) r) []

/-- Python `'_'.join(str(k) for k in key)`. -/
def keyName (k : List String) : String :=
  String.intercalate "_" k

/-- Assignment into a Python dict: overwrite an existing key, else
append. -/
def setAssoc {β : Type} (m : List (String × β)) (k : String) (v : β) :
    List (String × β) :=
  if m.any (fun p => p.1 = k) then
    m.map (fun p => if p.1 = k then (k, v) else p)
  else m ++ [(k, v)]

/-- The `group_results` dictionary: key name, group size and the
column/value pairs. -/
def groupDetails (rows : List Record) (cols : List String) :
    List (String × Nat × List (String × String)) :=
  (buildGroups rows cols).foldl
    (fun m g => setAssoc m (keyName g.1) (g.2.length, cols.zip g.1)) []

/-- Result of `group_data_by`: the empty dictionary for empty input, or
the report; there is NO error constructor because the function cannot
report missing columns. -/
inductive GroupbyOutcome where
  | emptyDict
  | report (total_groups : Nat)
      (group_details : List (String × Nat × List (String × String)))
      (avg_group_size : ℚ)
deriving DecidableEq

/-- Embeds `BasicDataAnalyzer.group_data_by`. -/
def group_data_by (rows : List Record) (cols : List String) : GroupbyOutcome :=
  if rows = [] ∨ cols = [] then GroupbyOutcome.emptyDict
  else
    GroupbyOutcome.report (buildGroups rows cols).length
      (groupDetails rows cols)
      ((Nat.cast (((buildGroups rows cols).map (fun g => g.2.length)).sum) : ℚ) /
        ((buildGroups rows cols).length : ℚ))

/-- Projection of the reported average group size. -/
def avgOf : GroupbyOutcome → ℚ
  | GroupbyOutcome.emptyDict => 0
  | GroupbyOutcome.report _ _ a => a

theorem addToGroups_sum (gs : List (List String × List Record))
    (k : List String) (r : Record) :
    ((addToGroups gs k r).map (fun g => g.2.length)).sum =
      (gs.map (fun g => g.2.length)).sum + 1 := by
  induction gs with
  | nil => simp [addToGroups]
  | cons g rest ih =>
    rw [show addToGroups (g :: rest) k r =
        if g.1 = k then (g.1, g.2 ++ [r]) :: rest
        else (g.1, g.2) :: addToGroups rest k r from rfl]
    by_cases hk : g.1 = k
    · rw [if_pos hk]
      simp [List.length_append]
      omega
    · rw [if_neg hk]
      simp [ih]
      omega

theorem buildGroups_sum_aux (rows : List Record) (cols : List String)
    (gs : List (List String × List Record)) :
    ((rows.foldl (fun gs r => addToGroups gs (groupKey r cols) r) gs).map
        (fun g => g.2.length)).sum =
      (gs.map (fun g => g.2.length)).sum + rows.length := by
  induction rows generalizing gs with
  | nil => simp
  | cons r rest ih =>
    rw [List.foldl_cons, ih, addToGroups_sum]
    simp [Nat.add_assoc, Nat.add_comm 1 rest.length]

/-- C4.  For non-empty records and grouping columns, the pure-python
partition is total: the group sizes sum to the record count (records
with missing values group under the empty string rather than being
dropped), and the reported `avg_group_size` equals record count divided
by `total_groups`. -/
theorem group_sizes_total (rows : List Record) (cols : List String)
    (h1 : rows ≠ []) (h2 : cols ≠ []) :
    ((buildGroups rows cols).map (fun g => g.2.length)).sum = rows.length ∧
    avgOf (group_data_by rows cols) =
      (rows.length : ℚ) / ((buildGroups rows cols).length : ℚ) := by
  have hsum : ((buildGroups rows cols).map (fun g => g.2.length)).sum =
      rows.length := by
    unfold buildGroups
    rw [buildGroups_sum_aux]
    simp
  refine ⟨hsum, ?_⟩
  unfold group_data_by
  rw [if_neg (by simp [h1, h2])]
  simp only [avgOf]
  rw [hsum]

/-- Witness for C4 at a concrete dataset: three records grouped by
`p` into groups of sizes 2 and 1; the sizes sum to 3 and the average is
3/2. -/
theorem group_sizes_total_witness :
    ((buildGroups [[("p", "A")], [("p", "A")], [("p", "B")]] ["p"]).map
        (fun g => g.2.length)).sum =
      ([[("p", "A")], [("p", "A")], [("p", "B")]] : List Record).length ∧
    avgOf (group_data_by [[("p", "A")], [("p", "A")], [("p", "B")]] ["p"]) =
      (([[("p", "A")], [("p", "A")], [("p", "B")]] : List Record).length : ℚ) /
        ((buildGroups [[("p", "A")], [("p", "A")], [("p", "B")]] ["p"]).length : ℚ) :=
  group_sizes_total [[("p", "A")], [("p", "A")], [("p", "B")]] ["p"]
    (by decide) (by decide)

/-- Result of `PandasHelper.do_groupby_stuff`: the empty dictionary for
empty input, a structured error naming the missing columns, or the
group report. -/
inductive PandasGroupby where
  | emptyDict
  | errorMissing (missing : List String)
  | report (num_groups : Nat) (smallest largest : Nat) (average : ℚ)
deriving DecidableEq

/-- The missing-column check of `do_groupby_stuff`:
`[col for col in group_columns if col not in df.columns]`. -/
def missingOf (cols : List String) (group_columns : List String) :
    List String :=
  group_columns.filter (fun c => decide (c ∉ cols))

/-- Embeds `PandasHelper.do_groupby_stuff` under the record-source
contract (cells are raw strings, missing = empty string, so grouping
keeps every record).  The per-numeric-column cross-group block is not
modelled: it needs the dtype model and no claim depends on it. -/
def do_groupby_stuff (cols : List String) (rows : List Record)
    (group_columns : List String) : PandasGroupby :=
  if rows = [] ∨ cols = [] ∨ group_columns = [] then PandasGroupby.emptyDict
  else if missingOf cols group_columns ≠ [] then
    PandasGroupby.errorMissing (missingOf cols group_columns)
  else
    let sizes := (buildGroups rows group_columns).map (fun g => g.2.length)
    PandasGroupby.report (buildGroups rows group_columns).length
      (sizes.foldr min rows.length) (sizes.foldr max 0)
      ((Nat.cast sizes.sum : ℚ) / ((buildGroups rows group_columns).length : ℚ))

/-- C3 (amended).  The pandas group aggregator validates the requested
columns and returns a structured error naming exactly the offending
columns (no exception, no report), while the pure-python
`group_data_by` performs NO validation at all: for any non-empty input
it returns an ordinary group report, treating a nonexistent column as
the empty string for every record. -/
theorem groupby_missing_columns :
    (∀ (cols : List String) (rows : List Record) (gcols : List String),
      rows ≠ [] → cols ≠ [] → gcols ≠ [] → missingOf cols gcols ≠ [] →
      do_groupby_stuff cols rows gcols =
        PandasGroupby.errorMissing (missingOf cols gcols)) ∧
    (∀ (rows : List Record) (gcols : List String),
      rows ≠ [] → gcols ≠ [] →
      ∃ tg det avg, group_data_by rows gcols =
        GroupbyOutcome.report tg det avg) := by
  constructor
  · intro cols rows gcols h1 h2 h3 h4
    unfold do_groupby_stuff
    rw [if_neg (by simp [h1, h2, h3]), if_pos h4]
  · intro rows gcols h1 h2
    refine ⟨(buildGroups rows gcols).length, groupDetails rows gcols,
      (Nat.cast (((buildGroups rows gcols).map (fun g => g.2.length)).sum) : ℚ) /
        ((buildGroups rows gcols).length : ℚ), ?_⟩
    unfold group_data_by
    rw [if_neg (by simp [h1, h2])]

/-- Witness for C3's amended theorem at concrete inputs: requesting the
nonexistent column `b` of a one-column pandas frame yields
`errorMissing ["b"]`; the pure-python aggregator on the same request
still returns a report. -/
theorem groupby_missing_columns_witness :
    do_groupby_stuff ["a"] [[("a", "1")]] ["b"] =
      PandasGroupby.errorMissing (missingOf ["a"] ["b"]) ∧
    ∃ tg det avg, group_data_by [[("a", "1")]] ["b"] =
      GroupbyOutcome.report tg det avg :=
  ⟨groupby_missing_columns.1 ["a"] [[("a", "1")]] ["b"]
      (by decide) (by decide) (by decide) (by decide),
    groupby_missing_columns.2 [[("a", "1")]] ["b"] (by decide) (by decide)⟩

/-- Counterexample to C3 as stated: `group_data_by` on a dataset whose
only column is `a`, asked to group by the nonexistent column `nope`,
does not return any error value — it produces a group report with one
group keyed by the empty string. -/
theorem groupby_missing_columns_counterexample :
    ("nope" ∉ (["a"] : List String)) ∧
    (∃ avg : ℚ, group_data_by [[("a", "1")]] ["nope"] =
      GroupbyOutcome.report 1 [("", 1, [("nope", "")])] avg) ∧
    avgOf (group_data_by [[("a", "1")]] ["nope"]) = 1 := by
  have h1 : ((buildGroups [[("a", "1")]] ["nope"]).map
      (fun g => g.2.length)).sum = 1 := by decide
  have h2 : (buildGroups [[("a", "1")]] ["nope"]).length = 1 := by decide
  have h3 : groupDetails [[("a", "1")]] ["nope"] = [("", 1, [("nope", "")])] := by
    decide
  refine ⟨by decide,
    ⟨(Nat.cast (((buildGroups [[("a", "1")]] ["nope"]).map
          (fun g => g.2.length)).sum) : ℚ) /
        ((buildGroups [[("a", "1")]] ["nope"]).length : ℚ), ?_⟩, ?_⟩
  · unfold group_data_by
    rw [if_neg (by decide)]
    rw [h2, h3]
  · unfold group_data_by
    rw [if_neg (by decide)]
    simp only [avgOf]
    rw [h1, h2]
    norm_num

/-! ### Data quality

`PandasHelper.examine_dataset` computes
`data_completeness = ((total_cells - missing_cells) / total_cells) * 100`
with `total_cells = len(df) * len(df.columns)` and `missing_cells` the
number of null cells (the polars variant counts nulls the same way).
Under the record-source contract a cell is null exactly when its raw
field is blank/whitespace-only, so missing cells are the blank ones. -/

/-- `total_cells = row_count * column_count`. -/
def total_cells (cols : List String) (rows : List Record) : Nat :=
  rows.length * cols.length

/-- Number of missing (blank) cells of one record. -/
def missingInRow (cols : List String) (r : Record) : Nat :=
  (cols.filter (fun c => isBlank (getCol r c))).length

/-- `missing_cells`: blank cells summed over the whole dataset. -/
def missing_cells (cols : List String) (rows : List Record) : Nat :=
  (rows.map (missingInRow cols)).sum

/-- Embeds the completeness percentage of the quality check. -/
def data_completeness (cols : List String) (rows : List Record) : ℚ :=
  (((total_cells cols rows : ℚ) - (missing_cells cols rows : ℚ)) /
      (total_cells cols rows : ℚ)) * 100

theorem filterLen_le {α : Type} (p : α → Bool) (l : List α) :
    (l.filter p).length ≤ l.length := by
  induction l with
  | nil => simp
  | cons x rest ih =>
    rw [List.filter_cons]
    by_cases hx : p x
    · rw [if_pos hx]
      rw [List.length_cons, List.length_cons]
      omega
    · rw [if_neg hx]
      rw [List.length_cons]
      omega

theorem filterLen_zero_iff {α : Type} (p : α → Bool) (l : List α) :
    (l.filter p).length = 0 ↔ ∀ x ∈ l, p x = false := by
  induction l with
  | nil => simp
  | cons x rest ih =>
    rw [List.filter_cons]
    by_cases hx : p x
    · simp [hx, ih]
    · simp [hx, ih]

theorem natListSum_zero_iff (l : List ℕ) : l.sum = 0 ↔ ∀ x ∈ l, x = 0 := by
  induction l with
  | nil => simp
  | cons x rest ih =>
    rw [List.sum_cons]
    constructor
    · intro h y hy
      have hx : x = 0 := by omega
      have hr : rest.sum = 0 := by omega
      rcases List.mem_cons.mp hy with h1 | h1
      · rw [h1, hx]
      · exact (ih.mp hr) y h1
    · intro h
      have hx := h x (List.mem_cons_self x rest)
      have hr : rest.sum = 0 :=
        ih.mpr (fun y hy => h y (List.mem_cons_of_mem x hy))
      omega

theorem natListSum_le {α : Type} (l : List α) (f : α → ℕ) (b : ℕ)
    (h : ∀ x ∈ l, f x ≤ b) : (l.map f).sum ≤ l.length * b := by
  induction l with
  | nil => simp
  | cons x rest ih =>
    rw [List.map_cons, List.sum_cons, List.length_cons]
    have h1 := h x (List.mem_cons_self x rest)
    have h2 := ih (fun y hy => h y (List.mem_cons_of_mem x hy))
    calc f x + (rest.map f).sum ≤ b + rest.length * b := Nat.add_le_add h1 h2
    _ = (rest.length + 1) * b := by ring

theorem missing_le_total (cols : List String) (rows : List Record) :
    missing_cells cols rows ≤ total_cells cols rows := by
  unfold missing_cells total_cells
  exact natListSum_le rows (missingInRow cols) cols.length
    (fun r _ => filterLen_le _ cols)

/-- C5.  For a dataset with at least one record and at least one column,
the completeness percentage lies in `[0, 100]`, and it equals 100 exactly
when no cell of the dataset is blank/whitespace-only. -/
theorem data_completeness_spec (cols : List String) (rows : List Record)
    (h1 : rows ≠ []) (h2 : cols ≠ []) :
    0 ≤ data_completeness cols rows ∧ data_completeness cols rows ≤ 100 ∧
    (data_completeness cols rows = 100 ↔
      ∀ r ∈ rows, ∀ c ∈ cols, isBlank (getCol r c) = false) := by
  have ht : 0 < total_cells cols rows :=
    Nat.mul_pos (List.length_pos.mpr h1) (List.length_pos.mpr h2)
  have htQ : (0 : ℚ) < (total_cells cols rows : ℚ) := by exact_mod_cast ht
  have hmQ : ((missing_cells cols rows : ℚ)) ≤ (total_cells cols rows : ℚ) := by
    exact_mod_cast missing_le_total cols rows
  have hm0 : (0 : ℚ) ≤ (missing_cells cols rows : ℚ) := by positivity
  refine ⟨?_, ?_, ?_⟩
  · unfold data_completeness
    apply mul_nonneg
    · apply div_nonneg _ htQ.le
      linarith
    · norm_num
  · unfold data_completeness
    have hq : ((total_cells cols rows : ℚ) - (missing_cells cols rows : ℚ)) /
        (total_cells cols rows : ℚ) ≤ 1 := by
      rw [div_le_one htQ]
      linarith
    calc (((total_cells cols rows : ℚ) - (missing_cells cols rows : ℚ)) /
          (total_cells cols rows : ℚ)) * 100 ≤ 1 * 100 :=
        mul_le_mul_of_nonneg_right hq (by norm_num)
    _ = 100 := by norm_num
  · have key : data_completeness cols rows = 100 ↔
        missing_cells cols rows = 0 := by
      unfold data_completeness
      rw [div_mul_eq_mul_div, div_eq_iff htQ.ne']
      constructor
      · intro h
        have : (missing_cells cols rows : ℚ) = 0 := by linarith
        exact_mod_cast this
      · intro h
        rw [h]
        push_cast
        ring
    rw [key]
    unfold missing_cells
    rw [natListSum_zero_iff]
    constructor
    · intro h r hr c hc
      have hrow : missingInRow cols r = 0 :=
        h (missingInRow cols r) (List.mem_map.mpr ⟨r, hr, rfl⟩)
      unfold missingInRow at hrow
      exact (filterLen_zero_iff _ cols).mp hrow c hc
    · intro h x hx
      obtain ⟨r, hr, hrx⟩ := List.mem_map.mp hx
      rw [← hrx]
      unfold missingInRow
      exact (filterLen_zero_iff _ cols).mpr (fun c hc => h r hr c hc)

/-- Witness for C5 at a concrete dataset: one record, one column, no
blank cell — completeness is in range and the 100%-iff holds. -/
theorem data_completeness_spec_witness :
    0 ≤ data_completeness ["a"] [[("a", "1")]] ∧
    data_completeness ["a"] [[("a", "1")]] ≤ 100 ∧
    (data_completeness ["a"] [[("a", "1")]] = 100 ↔
      ∀ r ∈ ([[("a", "1")]] : List Record), ∀ c ∈ ["a"],
        isBlank (getCol r c) = false) :=
  data_completeness_spec ["a"] [[("a", "1")]] (by decide) (by decide)

/-! ### The per-column profile and the whole-dataset analyzer

`analyze_whole_dataset` records `time.time()` before and after the
column loop and stores `end - start` in the returned report as
`time_taken`; we pass the two clock readings as an explicit argument.
The string-to-float value map of `make_float` is likewise a parameter
(exact values do not matter to the claims; binary64 rounding is not
modelled). -/

/-- `min(number_list)` / `max(number_list)` guarded by
`if number_list else None`. -/
def localMin (l : List ℚ) : Option ℚ :=
  match l with
  | [] => none
  | x :: xs => some (xs.foldl min x)

/-- Companion of `localMin` for `max`. -/
def localMax (l : List ℚ) : Option ℚ :=
  match l with
  | [] => none
  | x :: xs => some (xs.foldl max x)

/-- The kind-specific fields merged into `basic_info` by
`look_at_one_column`. -/
inductive ColumnStatsB where
  | nested_region (total_spend total_impressions : Int)
  | nested_demo (total_spend total_impressions : Int)
      (most_targeted_demo : List (String × Nat))
  | numbers (average : ℚ) (smallest biggest : Option ℚ) (spread : ℝ)
  | text (different_values : Nat) (most_common : List (String × Nat))
      (sample_values : List String)

/-- The per-column dictionary built by `look_at_one_column`. -/
structure ColumnInfo where
  name : String
  total_rows : Nat
  has_data : Nat
  missing_data : Nat
  stats : ColumnStatsB

/-- Embeds `BasicDataAnalyzer.look_at_one_column`.  An uncaught
exception from the nested unpackers propagates (the whole call is in
`Except`). -/
noncomputable def look_at_one_column (parse : String → Option PyVal)
    (toFloat : String → ℚ) (rows : List Record) (col_name : String) :
    Except String ColumnInfo :=
  let all_values := rows.map (fun r => getCol r col_name)
  let real_values := all_values.filter (fun v => !(isBlank v))
  let base := fun stats => ColumnInfo.mk col_name rows.length
    real_values.length (rows.length - real_values.length) stats
  if col_name = "delivery_by_region" then
    (real_values.mapM (fun v => unpack_delivery_by_region (parse v))).map
      (fun us => base (ColumnStatsB.nested_region
        (us.map (fun u => u.1)).sum (us.map (fun u => u.2)).sum))
  else if col_name = "demographic_distribution" then
    (real_values.mapM (fun v => unpack_demographics (parse v))).map
      (fun us => base (ColumnStatsB.nested_demo
        (us.map (fun u => u.total_spend)).sum
        (us.map (fun u => u.total_impressions)).sum
        (mostCommon 1 (us.filterMap (fun u =>
          match u.top_demo_by_spend with
          | some s => if s = "" then none else some s
          | none => none)))))
  else
    let number_list := (real_values.filter check_if_number).map toFloat
    Except.ok (if 0 < number_list.length ∧
        (1 : ℚ) / 2 < (number_list.length : ℚ) / (real_values.length : ℚ) then
      base (ColumnStatsB.numbers (get_average number_list)
        (localMin number_list) (localMax number_list)
        (get_std_dev number_list))
    else
      base (ColumnStatsB.text (firstOccs real_values).length
        (mostCommon 5 real_values) ((firstOccs real_values).take 10)))

/-- The `dataset_info` block. -/
structure DatasetInfo where
  name : String
  num_rows : Nat
  num_columns : Nat
  column_names : List String

/-- The dictionary returned by `analyze_whole_dataset` when data is
present. -/
structure FullReport where
  dataset_info : DatasetInfo
  column_info : List (String × ColumnInfo)
  time_taken : ℚ

/-- A returned value of `analyze_whole_dataset`: either the
`{'error': 'No data found!'}` dictionary or a report. -/
inductive AnalyzeReturn where
  | errorDict (msg : String)
  | report (r : FullReport)

/-- Embeds `BasicDataAnalyzer.analyze_whole_dataset`: empty input
returns the error dictionary; otherwise column names come from the
first record and each column is profiled; `time_taken` is the
difference of the two clock readings. -/
noncomputable def analyze_whole_dataset (parse : String → Option PyVal)
    (toFloat : String → ℚ) (rows : List Record) (name : String)
    (clock : ℚ × ℚ) : Except String AnalyzeReturn :=
  match rows with
  | [] => Except.ok (AnalyzeReturn.errorDict "No data found!")
  | r0 :: _ =>
    let cols := List.map (fun p => p.1) r0
    (cols.mapM (fun c =>
        (look_at_one_column parse toFloat rows c).map (fun i => (c, i)))).map
      (fun ci => AnalyzeReturn.report
        ⟨⟨name, rows.length, cols.length, cols⟩, ci, clock.2 - clock.1⟩)

/-- Erase the wall-clock field of a returned report. -/
def stripTime : Except String AnalyzeReturn → Except String AnalyzeReturn
  | Except.ok (AnalyzeReturn.report r) =>
    Except.ok (AnalyzeReturn.report ⟨r.dataset_info, r.column_info, 0⟩)
  | o => o

/-- The wall-clock field of a returned report (0 otherwise). -/
def timeOf : Except String AnalyzeReturn → ℚ
  | Except.ok (AnalyzeReturn.report r) => r.time_taken
  | _ => 0

/-- C10 (amended).  Everything in the report except `time_taken` is a
pure function of the input records: two runs of the analyzer on the
same dataset agree on every field after erasing the wall-clock field,
whatever the clock read on each run. -/
theorem analyze_pure_up_to_time (parse : String → Option PyVal)
    (toFloat : String → ℚ) (rows : List Record) (name : String)
    (c1 c2 : ℚ × ℚ) :
    stripTime (analyze_whole_dataset parse toFloat rows name c1) =
      stripTime (analyze_whole_dataset parse toFloat rows name c2) := by
  cases rows with
  | nil => rfl
  | cons r0 rest =>
    unfold analyze_whole_dataset
    dsimp only
    cases hm : (List.map (fun p => p.1) r0).mapM (fun c =>
        (look_at_one_column parse toFloat (r0 :: rest) c).map
          (fun i => (c, i))) with
    | error e => rfl
    | ok ci => rfl

/-- Counterexample to C10 as stated: two runs on the same one-record
dataset, with clock readings `(0, 1)` and `(0, 2)`, return reports that
differ (in the `time_taken` field), so the full reports are NOT
bit-identical. -/
theorem analyze_not_bit_identical :
    analyze_whole_dataset (fun _ => none) (fun _ => 0)
        [[("delivery_by_region", "x")]] "d" (0, 1) ≠
      analyze_whole_dataset (fun _ => none) (fun _ => 0)
        [[("delivery_by_region", "x")]] "d" (0, 2) := by
  intro h
  have h2 := congrArg timeOf h
  have h3 : (1 : ℚ) - 0 = 2 - 0 := h2
  norm_num at h3

/-- Outcome of the pandas `examine_dataset` guard and quality block. -/
inductive QualityOutcome where
  | errorDict (msg : String)
  | quality (completeness : ℚ) (cols_with_missing : Nat) (total_missing : Nat)

/-- Embeds the `df.empty` guard of `PandasHelper.examine_dataset`
together with its `quality_check` block (the per-column `col_details`
loop is profiled by `look_at_one_column`'s embedding and does not bear
on the empty-dataset claim). -/
def examine_dataset_quality (cols : List String) (rows : List Record) :
    QualityOutcome :=
  if rows = [] ∨ cols = [] then QualityOutcome.errorDict "Dataset is empty!"
  else
    QualityOutcome.quality (data_completeness cols rows)
      ((cols.filter (fun c => rows.any (fun r => isBlank (getCol r c)))).length)
      (missing_cells cols rows)

/-- C9.  A dataset with zero records makes both analyzers return their
explicit empty-dataset marker instead of computing statistics, and in
the non-empty case the completeness denominator `total_cells` is
strictly positive, so no percentage is ever formed with a zero
denominator. -/
theorem empty_dataset_marker :
    (∀ (parse : String → Option PyVal) (toFloat : String → ℚ)
        (name : String) (clock : ℚ × ℚ),
      analyze_whole_dataset parse toFloat [] name clock =
        Except.ok (AnalyzeReturn.errorDict "No data found!")) ∧
    (∀ cols : List String,
      examine_dataset_quality cols [] =
        QualityOutcome.errorDict "Dataset is empty!") ∧
    (∀ (cols : List String) (rows : List Record),
      rows ≠ [] → cols ≠ [] → 0 < total_cells cols rows) := by
  refine ⟨fun _ _ _ _ => rfl, ?_, ?_⟩
  · intro cols
    unfold examine_dataset_quality
    rw [if_pos (Or.inl rfl)]
  · intro cols rows h1 h2
    exact Nat.mul_pos (List.length_pos.mpr h1) (List.length_pos.mpr h2)

/-- Witness for C9 at concrete inputs: the empty dataset markers of
both analyzers, and a positive cell count for a one-cell dataset. -/
theorem empty_dataset_marker_witness :
    analyze_whole_dataset (fun _ => none) (fun _ => 0) [] "n" (0, 0) =
      Except.ok (AnalyzeReturn.errorDict "No data found!") ∧
    examine_dataset_quality ["a"] [] =
      QualityOutcome.errorDict "Dataset is empty!" ∧
    0 < total_cells ["a"] [[("a", "1")]] :=
  ⟨empty_dataset_marker.1 (fun _ => none) (fun _ => 0) "n" (0, 0),
    empty_dataset_marker.2.1 ["a"],
    empty_dataset_marker.2.2 ["a"] [[("a", "1")]] (by decide) (by decide)⟩

/-- The `data_type` tag corresponding to a statistics block. -/
def statsKind : ColumnStatsB → DataType
  | ColumnStatsB.nested_region _ _ => DataType.nested_dict
  | ColumnStatsB.nested_demo _ _ _ => DataType.nested_dict
  | ColumnStatsB.numbers _ _ _ _ => DataType.numbers
  | ColumnStatsB.text _ _ _ => DataType.text

/-- `classify_column` is exactly the branch selection of
`look_at_one_column`: whenever the profiler returns a column info, the
kind of its statistics block is the classifier's verdict on the
column's raw values. -/
theorem look_at_one_column_kind (parse : String → Option PyVal)
    (toFloat : String → ℚ) (rows : List Record) (col_name : String)
    (info : ColumnInfo)
    (h : look_at_one_column parse toFloat rows col_name = Except.ok info) :
    statsKind info.stats =
      classify_column col_name (rows.map (fun r => getCol r col_name)) := by
  unfold look_at_one_column at h
  dsimp only at h
  unfold classify_column realValues
  by_cases h1 : col_name = "delivery_by_region"
  · rw [if_pos h1] at h
    rw [if_pos h1]
    cases hu : (List.filter (fun v => !(isBlank v))
          (List.map (fun r => getCol r col_name) rows)).mapM
        (fun v => unpack_delivery_by_region (parse v)) with
    | error e =>
      rw [hu] at h
      exact absurd h (by simp [Except.map])
    | ok us =>
      rw [hu] at h
      dsimp only [Except.map] at h
      injection h with h2
      rw [← h2]
      rfl
  · rw [if_neg h1] at h
    rw [if_neg h1]
    by_cases h2 : col_name = "demographic_distribution"
    · rw [if_pos h2] at h
      rw [if_pos h2]
      cases hu : (List.filter (fun v => !(isBlank v))
            (List.map (fun r => getCol r col_name) rows)).mapM
          (fun v => unpack_demographics (parse v)) with
      | error e =>
        rw [hu] at h
        exact absurd h (by simp [Except.map])
      | ok us =>
        rw [hu] at h
        dsimp only [Except.map] at h
        injection h with h3
        rw [← h3]
        rfl
    · rw [if_neg h2] at h
      rw [if_neg h2]
      injection h with h3
      rw [← h3]
      simp only [List.length_map] at *
      by_cases hc : 0 < (List.filter check_if_number
            (List.filter (fun v => !(isBlank v))
              (List.map (fun r => getCol r col_name) rows))).length ∧
          (1 : ℚ) / 2 < ((List.filter check_if_number
              (List.filter (fun v => !(isBlank v))
                (List.map (fun r => getCol r col_name) rows))).length : ℚ) /
            ((List.filter (fun v => !(isBlank v))
              (List.map (fun r => getCol r col_name) rows)).length : ℚ)
      · rw [if_pos hc, if_pos hc]
        rfl
      · rw [if_neg hc, if_neg hc]
        rfl
